import Mathlib

/-!
Shallow embedding of the flight-plan core of `dcb-atfm`
(`src/abtract/flightplan.py`): the `Plan`, `FlightPlan` and
`EncodedFlightPlan` classes and their operations, followed by theorems
settling the frozen claims about them.

Modelling conventions:
* Python ints are `Int`; the numpy time-slot arrays hold small integers and
  every operation on them is an exact integer translation, so they are
  modelled as `List Int`.
* Python float coordinate fields (longitude/latitude) are modelled as `Rat`;
  no claim performs arithmetic on them, they only ride along in records.
* A Python `dict` (insertion-ordered, unique keys, assignment overwrites in
  place) is an association list with `dictSet` / `dictGet`.
* Methods that mutate `self` become functions returning the new state;
  methods that both mutate and return a value return a pair
  `(new state, returned value)`.  Methods that can raise return `Option` /
  `Except` (`none` / `.error` is the raised exception, and the caller's
  state is then the unchanged receiver, exactly as in Python where the
  raise happens before any mutation).
* `set(zip(xs, ys))` becomes `(xs.zip ys).toFinset` (Python `zip` and
  `List.zip` both truncate to the shorter list).
-/

namespace DcbAtfm

/-- Truthiness of a Python optional-string field: `None` and the empty
string are falsy, every other string is truthy. -/
def truthyStr : Option String → Bool
  | none => false
  | some s => !s.isEmpty

/-- One facility-crossing record of a flight (class `Plan`). -/
structure Plan where
  call_sign : String
  facility : String
  time_entry : Int
  time_exit : Int
  altitude_entry : Int
  altitude_exit : Int
  longitude_entry : Rat
  longitude_exit : Rat
  latitude_entry : Rat
  latitude_exit : Rat
  runway_use : Option String := none
  fir : Option String := none
  deriving DecidableEq, Repr

/-- Method `Plan.reschedule`: shift entry and exit time by
`num_timeslot` (in place in Python; here the shifted record). -/
def Plan.reschedule (p : Plan) (num_timeslot : Int) : Plan :=
  { p with
    time_entry := p.time_entry + num_timeslot
    time_exit := p.time_exit + num_timeslot }

/-- An ordered sequence of `Plan`s of one flight (class `FlightPlan`).
The stored `flight_type` field and the `airline` field are kept as plain
data; the source's construction-order hazards around their defaults are
design notes, not behaviour of the methods modelled here. -/
structure FlightPlan where
  callsign : String
  flight_type : String := "local"
  airline : String
  plans : List Plan
  deriving DecidableEq, Repr

/-- Comparison used by `FlightPlan.sorted`: Python
`sorted(self.plans, key=lambda x: x.time_entry)` orders by entry time
(stably, like mergeSort). -/
def planLE (a b : Plan) : Bool :=
  a.time_entry ≤ b.time_entry

/-- Method `FlightPlan.sorted(in_place=False)`: the plans ordered by entry
time, receiver untouched. -/
def FlightPlan.sortedPlans (fp : FlightPlan) : List Plan :=
  fp.plans.mergeSort planLE

/-- Method `FlightPlan.sorted(in_place=True)`: the flight plan with its
plans ordered by entry time. -/
def FlightPlan.sortInPlace (fp : FlightPlan) : FlightPlan :=
  { fp with plans := fp.sortedPlans }

/-- Method `FlightPlan.add`: raise `ValueError` when the sequence is
non-empty and the new plan's call sign differs from the first stored
plan's call sign; otherwise append and re-sort.  The raise happens before
the append, so on `.error` the receiver is unchanged. -/
def FlightPlan.add (fp : FlightPlan) (p : Plan) : Except String FlightPlan :=
  match fp.plans with
  | [] => .ok (FlightPlan.sortInPlace { fp with plans := fp.plans ++ [p] })
  | p0 :: _ =>
    if p.call_sign ≠ p0.call_sign then
      .error "PLan is not in the same flight plan"
    else
      .ok (FlightPlan.sortInPlace { fp with plans := fp.plans ++ [p] })

/-- Method `FlightPlan.reschedule`: forward the shift to every plan. -/
def FlightPlan.reschedule (fp : FlightPlan) (num_timeslot : Int) : FlightPlan :=
  { fp with plans := fp.plans.map (fun p => p.reschedule num_timeslot) }

/-- Method `FlightPlan.trim_runway`: deep-copy, pop the first plan when its
`runway_use` is truthy, then pop the last plan of the (possibly already
shortened) copy when its `runway_use` is truthy.  Indexing `plans[0]` or
`plans[-1]` on an empty list raises `IndexError`, modelled as `none`.
The receiver is never changed (the source works on a deep copy). -/
def FlightPlan.trim_runway (fp : FlightPlan) : Option FlightPlan :=
  match fp.plans with
  | [] => none
  | p0 :: rest =>
    let ps1 := if truthyStr p0.runway_use then rest else p0 :: rest
    match ps1.getLast? with
    | none => none
    | some plast =>
      let ps2 := if truthyStr plast.runway_use then ps1.dropLast else ps1
      some { fp with plans := ps2 }

/-- Property `FlightPlan.flight_type`, modelled with an evaluation-depth
fuel.  In the source the property getter reads `self.flight_type`, which
is the property itself (the data descriptor shadows the stored field), so
evaluating the condition re-enters the getter.  `none` is a computation
that has exhausted its depth budget without producing a value.  The
`else` branch is the classification over `plans[0]` / `plans[-1]`
(`none` again when the sequence is empty and indexing raises). -/
def FlightPlan.flight_type_fuel : Nat → FlightPlan → Option String
  | 0, _ => none
  | fuel + 1, fp =>
    match FlightPlan.flight_type_fuel fuel fp with
    | none => none
    | some v =>
      if v.isEmpty then
        match fp.plans.head?, fp.plans.getLast? with
        | some p0, some plast =>
          some
            (if p0.runway_use = some "departure" ∧ plast.runway_use = some "arrival" then
               "local"
             else if p0.runway_use = some "departure" then "outbound"
             else if plast.runway_use = some "arrival" then "inbound"
             else "unknown")
        | _, _ => none
      else some v

/-- Python dict assignment `d[k] = v`: overwrite in place when the key is
present, else append at the end (insertion order preserved). -/
def dictSet {α β : Type} [DecidableEq α] : List (α × β) → α → β → List (α × β)
  | [], k, v => [(k, v)]
  | (k0, v0) :: rest, k, v =>
    if k0 = k then (k, v) :: rest else (k0, v0) :: dictSet rest k v

/-- Python dict lookup `d[k]` (as an `Option`). -/
def dictGet {α β : Type} [DecidableEq α] : List (α × β) → α → Option β
  | [], _ => none
  | (k0, v0) :: rest, k => if k0 = k then some v0 else dictGet rest k

/-- The compacted encoding of a flight plan (class `EncodedFlightPlan`).
The facility-identifier type is a parameter: the source annotates it
`int` but nothing enforces that, and the spec's scenario uses string
facility names. -/
structure EncodedFlightPlan (α : Type) where
  callsign : String
  flight_id : Int
  flight_type : String
  facility_ids : List α := []
  fir_ids : List Int := []
  time_slot_ids : List Int := []
  flight_plan : List (α × List Int) := []
  original_time_slot : Option Int := none
  departed : Bool := false
  num_hold : Int := 0
  num_overcapacity : Int := 0
  deriving DecidableEq, Repr

variable {α : Type}

/-- Property `EncodedFlightPlan.id_pairs` (and the helper
`_get_facility_timeslot_id_pairs`): `list(zip(facility_ids, time_slot_ids))`. -/
def EncodedFlightPlan.id_pairs (e : EncodedFlightPlan α) : List (α × Int) :=
  e.facility_ids.zip e.time_slot_ids

/-- The occupancy cells `set(zip(facs, slots))` as a finite set. -/
def pairSet [DecidableEq α] (facs : List α) (slots : List Int) : Finset (α × Int) :=
  (facs.zip slots).toFinset

/-- Method `EncodedFlightPlan.add_plan`: append `time_slot_ids` to the flat
slot sequence, append `facility_id` once per slot to the flat facility
sequence, and store `time_slot_ids` under `facility_id` in the grouped dict. -/
def EncodedFlightPlan.add_plan [DecidableEq α] (e : EncodedFlightPlan α)
    (facility_id : α) (time_slot_ids : List Int) : EncodedFlightPlan α :=
  { e with
    time_slot_ids := e.time_slot_ids ++ time_slot_ids
    facility_ids := e.facility_ids ++ List.replicate time_slot_ids.length facility_id
    flight_plan := dictSet e.flight_plan facility_id time_slot_ids }

/-- Method `EncodedFlightPlan.advance`: record the (facility, slot) cells,
subtract `num_timeslot` from every flat slot and every grouped slot, and
return (decreasing-demand cells, increasing-demand cells) as the two set
differences.  The result is `(new state, (vacated, occupied))`. -/
def EncodedFlightPlan.advance [DecidableEq α] (e : EncodedFlightPlan α)
    (num_timeslot : Int) :
    EncodedFlightPlan α × (Finset (α × Int) × Finset (α × Int)) :=
  let former := pairSet e.facility_ids e.time_slot_ids
  let shifted := e.time_slot_ids.map (fun t => t - num_timeslot)
  let later := pairSet e.facility_ids shifted
  ({ e with
     time_slot_ids := shifted
     flight_plan := e.flight_plan.map (fun kv => (kv.1, kv.2.map (fun t => t - num_timeslot))) },
   (former \ later, later \ former))

/-- Method `EncodedFlightPlan.hold`: same as `advance` with the shift
added instead of subtracted. -/
def EncodedFlightPlan.hold [DecidableEq α] (e : EncodedFlightPlan α)
    (num_timeslot : Int) :
    EncodedFlightPlan α × (Finset (α × Int) × Finset (α × Int)) :=
  let former := pairSet e.facility_ids e.time_slot_ids
  let shifted := e.time_slot_ids.map (fun t => t + num_timeslot)
  let later := pairSet e.facility_ids shifted
  ({ e with
     time_slot_ids := shifted
     flight_plan := e.flight_plan.map (fun kv => (kv.1, kv.2.map (fun t => t + num_timeslot))) },
   (former \ later, later \ former))

/-- Method `EncodedFlightPlan.depart`: set the departed flag and return the
current id pairs. -/
def EncodedFlightPlan.depart (e : EncodedFlightPlan α) :
    EncodedFlightPlan α × List (α × Int) :=
  let e1 := { e with departed := true }
  (e1, e1.id_pairs)

/-- Method `EncodedFlightPlan.reschedule`: no-op at zero, otherwise `hold`
when delaying and `advance` when not (return value discarded). -/
def EncodedFlightPlan.reschedule [DecidableEq α] (e : EncodedFlightPlan α)
    (num_timeslot : Int) (delay : Bool) : EncodedFlightPlan α :=
  if num_timeslot = 0 then e
  else if delay then (e.hold num_timeslot).1
  else (e.advance num_timeslot).1

/-- Property `EncodedFlightPlan.departure_time_slot`: first flat slot
(raises on an empty encoding, modelled as `none`). -/
def EncodedFlightPlan.departure_time_slot (e : EncodedFlightPlan α) : Option Int :=
  e.time_slot_ids.head?

/-- A fresh encoding: flight metadata only, every container at its empty
default. -/
def freshEncoded (callsign : String) (flight_id : Int) (flight_type : String) :
    EncodedFlightPlan α :=
  { callsign := callsign, flight_id := flight_id, flight_type := flight_type }

/-- One call in a mutation history of an `EncodedFlightPlan`. -/
inductive EOp (α : Type) where
  | add_plan (facility_id : α) (time_slot_ids : List Int)
  | advance (num_timeslot : Int)
  | hold (num_timeslot : Int)
  | reschedule (num_timeslot : Int) (delay : Bool)
  | depart

/-- Apply one call to the state (returned values discarded). -/
def applyOp [DecidableEq α] (e : EncodedFlightPlan α) : EOp α → EncodedFlightPlan α
  | .add_plan f ts => e.add_plan f ts
  | .advance n => (e.advance n).1
  | .hold n => (e.hold n).1
  | .reschedule n d => e.reschedule n d
  | .depart => e.depart.1

/-- Apply a whole call history, oldest first. -/
def applyOps [DecidableEq α] (e : EncodedFlightPlan α) (ops : List (EOp α)) :
    EncodedFlightPlan α :=
  ops.foldl applyOp e

/-- Shifting a slot list forward then backward by the same amount is the
identity (integer arithmetic is exact). -/
theorem map_shift_cancel (v : List Int) (n : Int) :
    (v.map (fun t => t + n)).map (fun t => t - n) = v := by
  induction v with
  | nil => rfl
  | cons a t ih => simp [ih]

/-- Composed-map form of `map_shift_cancel`, matching the shape `simp`
produces after fusing the two maps. -/
theorem map_comp_shift_cancel (v : List Int) (n : Int) :
    v.map ((fun t => t - n) ∘ fun t => t + n) = v := by
  induction v with
  | nil => rfl
  | cons a t ih => simp [ih]

/-- Shifting every grouped slot list forward then backward by the same
amount is the identity on the grouped mapping. -/
theorem map_group_shift_cancel (l : List (α × List Int)) (n : Int) :
    (l.map (fun kv => (kv.1, kv.2.map (fun t => t + n)))).map
        (fun kv => (kv.1, kv.2.map (fun t => t - n))) = l := by
  induction l with
  | nil => rfl
  | cons kv rest ih =>
    simp only [List.map_cons, List.cons.injEq]
    exact ⟨by rw [map_shift_cancel], ih⟩

/-- A concrete plan with the coordinate fields zeroed; only call sign,
facility, times and runway role vary in the claims. -/
def mkPlan (cs fac : String) (te tx : Int) (ru : Option String) : Plan :=
  { call_sign := cs, facility := fac, time_entry := te, time_exit := tx
    altitude_entry := 0, altitude_exit := 0
    longitude_entry := 0, longitude_exit := 0
    latitude_entry := 0, latitude_exit := 0
    runway_use := ru, fir := none }

/-- The spec's concrete scenario state: a fresh encoding after
`add_plan("A", [100,101,102])` then `add_plan("B", [103,104])`,
then `hold(5)` with its returned pair of cell sets. -/
def scenarioHeld :
    EncodedFlightPlan String × (Finset (String × Int) × Finset (String × Int)) :=
  (((freshEncoded "X" 0 "local").add_plan "A" [100, 101, 102]).add_plan
      "B" [103, 104]).hold 5

/-- Claim C1: the concrete scenario leaves the flat slots at
`[105,...,109]`, the grouped mapping at A ↦ [105,106,107], B ↦ [108,109],
and `hold` returns vacated = the five old cells and occupied = the five
new cells. -/
theorem scenario_hold_five :
    scenarioHeld.1.time_slot_ids = [105, 106, 107, 108, 109] ∧
    scenarioHeld.1.flight_plan = [("A", [105, 106, 107]), ("B", [108, 109])] ∧
    scenarioHeld.2.1 =
      ({("A", 100), ("A", 101), ("A", 102), ("B", 103), ("B", 104)} :
        Finset (String × Int)) ∧
    scenarioHeld.2.2 =
      ({("A", 105), ("A", 106), ("A", 107), ("B", 108), ("B", 109)} :
        Finset (String × Int)) := by
  decide

/-- A one-facility, one-slot encoding used as a counterexample state. -/
def oneCellEncoded : EncodedFlightPlan String :=
  (freshEncoded "X" 0 "local").add_plan "A" [100]

/-- Counterexample to claim C2: from the same starting state with one cell
(A, 100), `advance(1)` vacates {(A, 100)} while `hold(1)` occupies
{(A, 101)}; the two sets differ. -/
theorem advance_vacated_ne_hold_occupied :
    (oneCellEncoded.advance 1).2.1 ≠ (oneCellEncoded.hold 1).2.2 := by
  decide

/-- A flight plan whose single plan has a runway role. -/
def singletonRunwayFP : FlightPlan :=
  { callsign := "AB1", airline := "AB"
    plans := [mkPlan "AB1" "RWY" 0 1 (some "departure")] }

/-- Counterexample to claim C4: on a single-plan flight plan whose plan
carries a runway role, `trim_runway` pops the only plan and then indexes
`plans[-1]` on the now-empty copy, raising `IndexError` instead of
returning a trimmed `FlightPlan`. -/
theorem trim_runway_singleton_runway_fails :
    singletonRunwayFP.trim_runway = none := by
  rfl

/-- Claim C2 (amended): after a `hold(n)`, the vacated set returned by a
subsequent `advance(n)` equals the occupied set that the `hold(n)`
returned — undoing a hold vacates exactly the cells the hold occupied. -/
theorem hold_then_advance_vacated_eq_hold_occupied [DecidableEq α]
    (e : EncodedFlightPlan α) (n : Int) :
    ((e.hold n).1.advance n).2.1 = (e.hold n).2.2 := by
  simp [EncodedFlightPlan.hold, EncodedFlightPlan.advance, pairSet,
    map_comp_shift_cancel]

/-- Claim C3: `hold(n)` then `advance(n)` restores the flat time-slot
sequence and the grouped mapping exactly (the facility sequence is not
touched by either call). -/
theorem hold_advance_restores [DecidableEq α] (e : EncodedFlightPlan α) (n : Int) :
    ((e.hold n).1.advance n).1.time_slot_ids = e.time_slot_ids ∧
    ((e.hold n).1.advance n).1.flight_plan = e.flight_plan := by
  constructor
  · simp [EncodedFlightPlan.hold, EncodedFlightPlan.advance, map_comp_shift_cancel]
  · simp only [EncodedFlightPlan.hold, EncodedFlightPlan.advance]
    exact map_group_shift_cancel e.flight_plan n

/-- Claim C10: `advance(n)` coincides with `hold(-n)` — same new state and
the same returned (vacated, occupied) pair. -/
theorem advance_eq_hold_neg [DecidableEq α] (e : EncodedFlightPlan α) (n : Int) :
    e.advance n = e.hold (-n) := by
  have h : (fun t : Int => t - n) = fun t : Int => t + -n :=
    funext fun t => by omega
  simp [EncodedFlightPlan.advance, EncodedFlightPlan.hold, h]

/-- Overwriting a key in a dict and then reading it back yields exactly the
new value, whatever was stored before. -/
theorem dictGet_dictSet_self {β : Type} [DecidableEq α]
    (d : List (α × β)) (k : α) (v : β) :
    dictGet (dictSet d k v) k = some v := by
  induction d with
  | nil => simp [dictSet, dictGet]
  | cons kv rest ih =>
    by_cases h : kv.1 = k
    · simp [dictSet, dictGet, h]
    · simp [dictSet, dictGet, h, ih]

/-- Claim C9: `add_plan(f, ts)` appends `f` once per element of `ts` to the
flat facility sequence, appends `ts` to the flat slot sequence, and sets
the grouped mapping's entry at `f` to exactly `ts`, overwriting any prior
entry. -/
theorem add_plan_appends_and_overwrites [DecidableEq α]
    (e : EncodedFlightPlan α) (f : α) (ts : List Int) :
    (e.add_plan f ts).facility_ids =
        e.facility_ids ++ List.replicate ts.length f ∧
    (e.add_plan f ts).time_slot_ids = e.time_slot_ids ++ ts ∧
    dictGet (e.add_plan f ts).flight_plan f = some ts :=
  ⟨rfl, rfl, dictGet_dictSet_self e.flight_plan f ts⟩

/-- One call preserves equality of the two flat sequence lengths. -/
theorem applyOp_preserves_len [DecidableEq α] (e : EncodedFlightPlan α)
    (op : EOp α) (h : e.facility_ids.length = e.time_slot_ids.length) :
    (applyOp e op).facility_ids.length = (applyOp e op).time_slot_ids.length := by
  cases op with
  | add_plan f ts =>
    simp [applyOp, EncodedFlightPlan.add_plan, h]
  | advance n =>
    simp [applyOp, EncodedFlightPlan.advance, h]
  | hold n =>
    simp [applyOp, EncodedFlightPlan.hold, h]
  | reschedule n d =>
    simp only [applyOp, EncodedFlightPlan.reschedule]
    split
    · exact h
    · split
      · simp [EncodedFlightPlan.hold, h]
      · simp [EncodedFlightPlan.advance, h]
  | depart =>
    simpa [applyOp, EncodedFlightPlan.depart] using h

/-- A call history preserves equality of the two flat sequence lengths. -/
theorem applyOps_preserves_len [DecidableEq α] (e : EncodedFlightPlan α)
    (ops : List (EOp α)) (h : e.facility_ids.length = e.time_slot_ids.length) :
    (applyOps e ops).facility_ids.length = (applyOps e ops).time_slot_ids.length := by
  induction ops generalizing e with
  | nil => exact h
  | cons op rest ih =>
    exact ih (applyOp e op) (applyOp_preserves_len e op h)

/-- Claim C8: starting from a fresh encoding, after any sequence of
`add_plan` / `advance` / `hold` / `reschedule` / `depart` calls the flat
facility and time-slot sequences have equal length. -/
theorem facility_timeslot_lengths_equal {α : Type} [DecidableEq α]
    (cs : String) (fid : Int) (ft : String) (ops : List (EOp α)) :
    (applyOps (freshEncoded cs fid ft) ops).facility_ids.length =
      (applyOps (freshEncoded cs fid ft) ops).time_slot_ids.length :=
  applyOps_preserves_len (freshEncoded cs fid ft) ops rfl

/-- Claim C7 (refuting termination): the `flight_type` property evaluates
`self.flight_type` in its own condition, so under every finite evaluation
depth it exhausts the budget without ever producing a classification —
the accessor never terminates with a value, on any flight plan. -/
theorem flight_type_accessor_diverges (fuel : Nat) (fp : FlightPlan) :
    FlightPlan.flight_type_fuel fuel fp = none := by
  induction fuel with
  | zero => rfl
  | succ k ih => simp [FlightPlan.flight_type_fuel, ih]

/-- Claim C5: on a non-empty flight plan whose stored plans all carry call
sign `c`, adding a plan with a different call sign fails with the
`ValueError` message and (the raise preceding the append) leaves the
sequence untouched, while adding a plan with call sign `c` appends it and
re-sorts the sequence by entry time. -/
theorem add_callsign_check (fp : FlightPlan) (p : Plan) (c : String)
    (hne : fp.plans ≠ []) (hall : ∀ q ∈ fp.plans, q.call_sign = c) :
    (p.call_sign ≠ c →
      fp.add p = Except.error "PLan is not in the same flight plan") ∧
    (p.call_sign = c →
      fp.add p =
        Except.ok { fp with plans := (fp.plans ++ [p]).mergeSort planLE }) := by
  match hfp : fp.plans with
  | [] => exact absurd hfp hne
  | p0 :: rest =>
    have h0 : p0.call_sign = c := hall p0 (by rw [hfp]; exact List.mem_cons_self p0 rest)
    constructor
    · intro hp
      simp [FlightPlan.add, hfp, h0, hp]
    · intro hp
      simp [FlightPlan.add, hfp, h0, hp, FlightPlan.sortInPlace,
        FlightPlan.sortedPlans]

/-- A one-plan flight plan used to instantiate the `add` claims. -/
def witFP : FlightPlan :=
  { callsign := "AB1", airline := "AB", plans := [mkPlan "AB1" "S1" 10 20 none] }

/-- A plan with a mismatching call sign. -/
def witBad : Plan := mkPlan "ZZ9" "S2" 5 8 none

/-- A plan with the matching call sign and an earlier entry time. -/
def witGood : Plan := mkPlan "AB1" "S2" 5 8 none

/-- Witness for claim C5 at a concrete input: the mismatching plan is
rejected and the matching one is appended and re-sorted. -/
theorem add_callsign_check_witness :
    witFP.add witBad = Except.error "PLan is not in the same flight plan" ∧
    witFP.add witGood =
      Except.ok { witFP with plans := (witFP.plans ++ [witGood]).mergeSort planLE } :=
  ⟨(add_callsign_check witFP witBad "AB1" (by decide) (by decide)).1 (by decide),
   (add_callsign_check witFP witGood "AB1" (by decide) (by decide)).2 (by decide)⟩

/-- Claim C6: whenever `add` succeeds, the resulting plan sequence is
sorted by entry time in non-decreasing order. -/
theorem add_ok_sorted (fp : FlightPlan) (p : Plan) (fp2 : FlightPlan)
    (h : fp.add p = Except.ok fp2) :
    fp2.plans.Pairwise (fun a b => a.time_entry ≤ b.time_entry) := by
  have key : ∀ l : List Plan,
      (l.mergeSort planLE).Pairwise (fun a b => a.time_entry ≤ b.time_entry) := by
    intro l
    have htr : ∀ a b c : Plan, planLE a b → planLE b c → planLE a c := by
      intro a b c hab hbc
      simp only [planLE, decide_eq_true_eq] at *
      omega
    have hto : ∀ a b : Plan, planLE a b || planLE b a := by
      intro a b
      simp only [planLE, Bool.or_eq_true, decide_eq_true_eq]
      omega
    have hs := List.sorted_mergeSort htr hto l
    exact hs.imp (fun hab => by simpa [planLE, decide_eq_true_eq] using hab)
  unfold FlightPlan.add at h
  split at h
  · injection h with h2
    subst h2
    exact key _
  · split at h
    · cases h
    · injection h with h2
      subst h2
      exact key _

/-- Witness for claim C6 at a concrete input: adding an earlier plan to a
one-plan flight plan yields a sequence sorted by entry time. -/
theorem add_ok_sorted_witness :
    ({ witFP with
        plans := (witFP.plans ++ [witGood]).mergeSort planLE } : FlightPlan).plans.Pairwise
      (fun a b => a.time_entry ≤ b.time_entry) :=
  add_ok_sorted witFP witGood _ (by rfl)

/-- Claim C4 (amended): on a flight plan with at least two plans,
`trim_runway` returns a copy in which the first plan is removed exactly
when its runway role is truthy and the (original) last plan is removed
exactly when its runway role is truthy, the two removals independent; a
single-plan flight plan without a runway role is returned unchanged; a
single-plan flight plan whose plan has a runway role makes the call raise
(the pop empties the copy before `plans[-1]` is read).  The receiver is a
deep copy away and is never changed. -/
theorem trim_runway_boundary (fp : FlightPlan) (p0 plast : Plan)
    (rest : List Plan) (hp : fp.plans = p0 :: rest)
    (hlast : (p0 :: rest).getLast? = some plast) :
    (rest ≠ [] →
      fp.trim_runway = some { fp with plans :=
        (if truthyStr plast.runway_use then
          (if truthyStr p0.runway_use then rest else p0 :: rest).dropLast
         else
          (if truthyStr p0.runway_use then rest else p0 :: rest)) }) ∧
    (rest = [] → truthyStr p0.runway_use = false → fp.trim_runway = some fp) ∧
    (rest = [] → truthyStr p0.runway_use = true → fp.trim_runway = none) := by
  refine ⟨?_, ?_, ?_⟩
  · intro hrest
    match hr : rest with
    | [] => exact absurd rfl hrest
    | q :: qs =>
      have hl : (q :: qs).getLast? = some plast := by
        rw [← hlast, List.getLast?_cons_cons]
      by_cases h0 : truthyStr p0.runway_use
      · simp [FlightPlan.trim_runway, hp, h0, hl]
      · simp [FlightPlan.trim_runway, hp, h0, List.getLast?_cons_cons, hl]
  · intro hrest h0
    subst hrest
    have hpl : plast = p0 := by
      simpa [List.getLast?_singleton] using hlast.symm
    subst hpl
    simp only [FlightPlan.trim_runway, hp, h0, Bool.false_eq_true, if_false,
      List.getLast?_singleton, Option.some.injEq]
    rw [← hp]
  · intro hrest h0
    subst hrest
    simp [FlightPlan.trim_runway, hp, h0]

/-- The departure-runway plan of the three-plan example. -/
def depPlan : Plan := mkPlan "AB1" "RWY" 0 1 (some "departure")

/-- The en-route plan of the three-plan example. -/
def enroutePlan : Plan := mkPlan "AB1" "SEC" 1 5 none

/-- The arrival-runway plan of the three-plan example. -/
def arrPlan : Plan := mkPlan "AB1" "RW2" 5 6 (some "arrival")

/-- The spec's three-plan example [departure, enroute, arrival]. -/
def threePlanFP : FlightPlan :=
  { callsign := "AB1", airline := "AB"
    plans := [depPlan, enroutePlan, arrPlan] }

/-- Witness for claim C4 at the spec's example: the three-plan sequence
[departure, enroute, arrival] trims to [enroute]. -/
theorem trim_runway_boundary_witness :
    threePlanFP.trim_runway = some { threePlanFP with plans := [enroutePlan] } := by
  have h :=
    (trim_runway_boundary threePlanFP depPlan arrPlan [enroutePlan, arrPlan]
        rfl (by rfl)).1 (by simp)
  simpa using h

end DcbAtfm
